import Mathlib

set_option maxRecDepth 100000

/-!
Verification of the `pulse8` waveform table from `src/DUAL_LFO/pulse8.h`
(ArduinoDualLFO). The header declares one constant: a 256-entry byte array
`pulse8` whose first 8 entries are 255 and whose remaining 248 entries are 0,
representing one period of a pulse wave. We embed the table as the literal
list of its 256 byte values, in source order, together with the lookup
operation `sample` described by the spec (direct indexed access, the caller
pre-wraps the index).
-/

/-- Table pulse8 from `src/DUAL_LFO/pulse8.h`: the 256 byte values of the
array literal, in source order (indices 0..7 hold 255, indices 8..255 hold 0). -/
def pulse8 : List Nat :=
  [255, 255, 255, 255, 255, 255, 255, 255, 0, 0, 0, 0, 0, 0, 0, 0,
   0, 0, 0, 0, 0, 0, 0, 0, 0, 0, 0, 0, 0, 0, 0, 0,
   0, 0, 0, 0, 0, 0, 0, 0, 0, 0, 0, 0, 0, 0, 0, 0,
   0, 0, 0, 0, 0, 0, 0, 0, 0, 0, 0, 0, 0, 0, 0, 0,
   0, 0, 0, 0, 0, 0, 0, 0, 0, 0, 0, 0, 0, 0, 0, 0,
   0, 0, 0, 0, 0, 0, 0, 0, 0, 0, 0, 0, 0, 0, 0, 0,
   0, 0, 0, 0, 0, 0, 0, 0, 0, 0, 0, 0, 0, 0, 0, 0,
   0, 0, 0, 0, 0, 0, 0, 0, 0, 0, 0, 0, 0, 0, 0, 0,
   0, 0, 0, 0, 0, 0, 0, 0, 0, 0, 0, 0, 0, 0, 0, 0,
   0, 0, 0, 0, 0, 0, 0, 0, 0, 0, 0, 0, 0, 0, 0, 0,
   0, 0, 0, 0, 0, 0, 0, 0, 0, 0, 0, 0, 0, 0, 0, 0,
   0, 0, 0, 0, 0, 0, 0, 0, 0, 0, 0, 0, 0, 0, 0, 0,
   0, 0, 0, 0, 0, 0, 0, 0, 0, 0, 0, 0, 0, 0, 0, 0,
   0, 0, 0, 0, 0, 0, 0, 0, 0, 0, 0, 0, 0, 0, 0, 0,
   0, 0, 0, 0, 0, 0, 0, 0, 0, 0, 0, 0, 0, 0, 0, 0,
   0, 0, 0, 0, 0, 0, 0, 0, 0, 0, 0, 0, 0, 0, 0, 0]

/-- Operation sample of the data contract: the byte at position `i` of the
table, by direct indexed access (the caller pre-wraps the index into range;
the default 0 is only reached beyond the table, which in-range callers never
do). -/
def sample (i : Nat) : Nat := pulse8.getD i 0

/-- Total lookup with an explicit out-of-bounds branch: indexing the table
returning an `Option`, `none` being the out-of-range case. -/
def sampleOpt (i : Nat) : Option Nat := pulse8[i]?

/-- Stateful read of a table: returns the byte looked up and the table state
after the read, making any side effect of a lookup on the table explicit. -/
def sampleRead (t : List Nat) (i : Nat) : Nat × List Nat := (t.getD i 0, t)

/-- Serialization of a table as its ordered byte values (the spec accepts any
binary form preserving the exact 256 ordered bytes; the bytes themselves are
that form). -/
def serialize (t : List Nat) : List Nat := t

/-- Deserialization: accepts exactly a 256-byte sequence and rebuilds the
table from it, rejecting any other length. -/
def deserialize (bs : List Nat) : Option (List Nat) :=
  if bs.length = 256 then some bs else none

/-- Consumer-side cyclic index interpretation: wrap an arbitrary integer
index into `[0, 256)` by taking it modulo 256. -/
def wrapIndex (n : Int) : Nat := (n % 256).toNat

lemma pulse8_length : pulse8.length = 256 := by decide

lemma sample_of_lt8 : ∀ i, i < 8 → sample i = 255 := by decide

lemma sample_of_ge8_lt256 : ∀ i, i < 256 → 8 ≤ i → sample i = 0 := by decide

/-- C1: every entry of the pulse8 table at an index in `[0, 8)` equals 255. -/
theorem pulse8_high_phase (i : Nat) (h : i < 8) : sample i = 255 :=
  sample_of_lt8 i h

theorem pulse8_high_phase_witness : sample 3 = 255 :=
  pulse8_high_phase 3 (by decide)

/-- C2: every entry of the pulse8 table at an index in `[8, 256)` equals 0. -/
theorem pulse8_low_phase (i : Nat) (h8 : 8 ≤ i) (h256 : i < 256) : sample i = 0 :=
  sample_of_ge8_lt256 i h256 h8

theorem pulse8_low_phase_witness : sample 100 = 0 :=
  pulse8_low_phase 100 (by decide) (by decide)

/-- C3: the pulse8 table has exactly 256 entries. -/
theorem pulse8_length_eq_256 : pulse8.length = 256 := pulse8_length

/-- C4: exactly 8 of the 256 entries are 255 and the remaining 248 are 0,
accounting for the whole table, and the encoded duty cycle 8/256 is 3.125%. -/
theorem pulse8_duty_cycle :
    pulse8.count 255 = 8 ∧ pulse8.count 0 = 248 ∧
    pulse8.count 255 + pulse8.count 0 = pulse8.length ∧
    (pulse8.count 255 : ℚ) / (pulse8.length : ℚ) * 100 = 3.125 := by
  have h255 : pulse8.count 255 = 8 := by decide
  have h0 : pulse8.count 0 = 248 := by decide
  refine ⟨h255, h0, ?_, ?_⟩
  · rw [h255, h0, pulse8_length]
  · rw [h255, pulse8_length]
    norm_num

/-- C5: for the index sequence [0, 4, 7, 8, 100, 255, 256] with the last
index wrapped modulo 256 before lookup, sample yields
[255, 255, 255, 0, 0, 0, 255]. -/
theorem pulse8_scenario :
    [0, 4, 7, 8, 100, 255, 256 % 256].map sample =
      [255, 255, 255, 0, 0, 0, 255] := by decide

/-- C6: the lookup is deterministic and side-effect free: for every in-range
index, reading leaves the table unchanged and a second read of the same index
returns the same byte. -/
theorem pulse8_read_pure (i : Nat) (h : i < 256) :
    (sampleRead pulse8 i).2 = pulse8 ∧
    (sampleRead (sampleRead pulse8 i).2 i).1 = (sampleRead pulse8 i).1 :=
  ⟨rfl, rfl⟩

theorem pulse8_read_pure_witness :
    (sampleRead pulse8 5).2 = pulse8 ∧
    (sampleRead (sampleRead pulse8 5).2 5).1 = (sampleRead pulse8 5).1 :=
  pulse8_read_pure 5 (by decide)

/-- C7: serializing the table as its 256 ordered byte values and then
deserializing reproduces the original table byte-for-byte. -/
theorem pulse8_round_trip : deserialize (serialize pulse8) = some pulse8 := by
  decide

/-- C8: for every in-range index the lookup cannot fail: the total lookup
yields some byte, so its out-of-bounds branch is unreachable under the
precondition `i < 256`. -/
theorem pulse8_total_in_range (i : Nat) (h : i < 256) :
    ∃ v, sampleOpt i = some v := by
  refine ⟨pulse8.getD i 0, ?_⟩
  have hlen : i < pulse8.length := by rw [pulse8_length]; exact h
  simp [sampleOpt, List.getElem?_eq_getElem hlen, List.getD_eq_getElem _ _ hlen]

theorem pulse8_total_in_range_witness : ∃ v, sampleOpt 0 = some v :=
  pulse8_total_in_range 0 (by decide)

/-- C9: the table is periodic under cyclic indexing: for every integer `n`,
looking up `n mod 256` and `(n + 256) mod 256` gives the same byte, so any
integer index taken modulo 256 traverses one repeated waveform period. -/
theorem pulse8_periodic (n : Int) :
    sample (wrapIndex n) = sample (wrapIndex (n + 256)) := by
  have h : (n + 256) % 256 = n % 256 := by omega
  unfold wrapIndex
  rw [h]

/-- C10: within one period the table is monotonically nonincreasing, and the
single falling edge is at index 8 (entry 7 is 255, entry 8 is 0). -/
theorem pulse8_nonincreasing :
    (∀ i j : Nat, i ≤ j → j < 256 → sample j ≤ sample i) ∧
    sample 7 = 255 ∧ sample 8 = 0 := by
  refine ⟨?_, by decide, by decide⟩
  intro i j hij hj
  by_cases hj8 : j < 8
  · rw [sample_of_lt8 j hj8, sample_of_lt8 i (lt_of_le_of_lt hij hj8)]
  · rw [sample_of_ge8_lt256 j hj (le_of_not_lt hj8)]
    exact Nat.zero_le _

theorem pulse8_nonincreasing_witness : sample 100 ≤ sample 3 :=
  pulse8_nonincreasing.1 3 100 (by decide) (by decide)
